import Mathlib

/-!
Verification development for the hysteria-panel remote-session subsystem.

Shallow embedding of:
- `NodeSSH` (src/services: exec, updateConfig, setupPortHopping, getSystemStats)
- `SSHPool` (connection registry: getConnection, createConnection, exec,
  removeConnection, transport event handlers, cleanup)
- `CryptoService` (encrypt/decrypt pipeline)

State is passed explicitly; remote behaviour (network, remote command
results) is a parameter of each operation; machine integers are `Nat`.
-/

/-- Contiguous-prefix test on character lists. -/
def listIsPrefix : List Char → List Char → Bool
  | [], _ => true
  | _ :: _, [] => false
  | a :: as, b :: bs => a == b && listIsPrefix as bs

/-- Contiguous-sublist test: does `hay` contain `needle`? -/
def listHasSub (needle : List Char) : List Char → Bool
  | [] => needle.isEmpty
  | c :: rest => listIsPrefix needle (c :: rest) || listHasSub needle rest

/-- JS `hay.includes(needle)` on strings. -/
def strIncludes (hay needle : String) : Bool :=
  listHasSub needle.data hay.data

namespace NodeSSH

/-- Captured result of one remote command: exit code surfaced verbatim,
stdout and stderr accumulated in two buffers (`NodeSSH.exec`). -/
structure ExecResult where
  code : Nat
  stdout : String
  stderr : String
deriving DecidableEq, Repr

/-- One chunk delivered by the remote stream: a `data` event on the main
stream (stdout) or on the stderr substream. -/
inductive StreamChunk where
  | out (s : String)
  | err (s : String)
deriving DecidableEq, Repr

/-- Behaviour of the remote side for one `client.exec` call: either the
remote refuses to start the command (`cb(err)`), or it runs, delivering a
sequence of data chunks and then a `close` event carrying the exit code. -/
inductive RemoteBehavior where
  | refuse (msg : String)
  | run (chunks : List StreamChunk) (code : Nat)
deriving DecidableEq, Repr

/-- Outcome of `NodeSSH.exec`: rejection with the not-connected error,
rejection with the exec error, or resolution with an `ExecResult`. -/
inductive ExecOutcome where
  | notConnected
  | execError (msg : String)
  | ok (r : ExecResult)
deriving DecidableEq, Repr

/-- Concatenation of the stdout chunks (`stdout += data.toString()`). -/
def collectOut : List StreamChunk → String
  | [] => ""
  | .out s :: rest => s ++ collectOut rest
  | .err _ :: rest => collectOut rest

/-- Concatenation of the stderr chunks (`stderr += data.toString()`). -/
def collectErr : List StreamChunk → String
  | [] => ""
  | .out _ :: rest => collectErr rest
  | .err s :: rest => s ++ collectErr rest

/-- `NodeSSH.exec(command)`: rejects with the not-connected error when
`this.client` is null (`clientPresent = false`); otherwise rejects iff the
remote refused to start the command; otherwise resolves on `close(code)`
with the code verbatim and the two buffers. -/
def exec (clientPresent : Bool) (beh : RemoteBehavior) : ExecOutcome :=
  if !clientPresent then
    .notConnected
  else
    match beh with
    | .refuse msg => .execError msg
    | .run chunks code => .ok ⟨code, collectOut chunks, collectErr chunks⟩

/-- Remote file system as seen by `updateConfig`: the live config file at
`configPath` and the sibling backup file at `configPath + ".bak"`. -/
structure RemoteFS where
  config : String
  backup : Option String
deriving DecidableEq, Repr

/-- Combined output of the remote validation subcommand
`hysteria check -c <configPath>` (stdout and stderr buffers of the exec). -/
structure CheckOutput where
  stdout : String
  stderr : String
deriving DecidableEq, Repr

/-- The error-marker scan of `updateConfig`:
`checkResult.stdout.includes('error') || checkResult.stderr.includes('error')`. -/
def validationFails (out : CheckOutput) : Bool :=
  strIncludes out.stdout "error" || strIncludes out.stderr "error"

/-- `NodeSSH.updateConfig(configContent)` as a transition on the remote
file system. `validate` gives the validator's combined output as a function
of the config text now installed at the live path; `reloadOk` is the
outcome of `reloadHysteria()` on the success path. Steps, as in the source:
(a) `cp config config.bak` (backup); (b) `writeFile` of the new content;
(c) run the check subcommand; (d) on error marker, `mv config.bak config`
(restore, which consumes the backup file) and return `false`;
(e) otherwise apply via reload and return its outcome. -/
def updateConfig (validate : String → CheckOutput) (reloadOk : Bool)
    (fs : RemoteFS) (configContent : String) : Bool × RemoteFS :=
  let fs1 : RemoteFS := { fs with backup := some fs.config }
  let fs2 : RemoteFS := { fs1 with config := configContent }
  let checkResult := validate configContent
  if validationFails checkResult then
    match fs2.backup with
    | some b => (false, { config := b, backup := none })
    | none => (false, fs2)
  else
    (reloadOk, fs2)

end NodeSSH

namespace SSHPool

/-- Pool metadata for one node (`SSHPool` registry value). `clientId`
identifies the underlying SSH `Client` object; `sockWritable` models
`client._sock?.writable`. -/
structure ConnMeta where
  clientId : Nat
  sockWritable : Bool
  createdAt : Nat
  lastUsed : Nat
  useCount : Nat
deriving DecidableEq, Repr

/-- The pool registry `this.connections : Map nodeId -> meta`, as an
association list with at most one binding per key (JS `Map`). -/
abbrev Registry := List (String × ConnMeta)

/-- Registry lookup, `this.connections.get(nodeId)`. -/
def findConn : Registry → String → Option ConnMeta
  | [], _ => none
  | (k, m) :: rest, id => if k = id then some m else findConn rest id

/-- Registry deletion, `this.connections.delete(nodeId)`. -/
def delConn : Registry → String → Registry
  | [], _ => []
  | (k, m) :: rest, id =>
    if k = id then delConn rest id else (k, m) :: delConn rest id

/-- Registry update, `this.connections.set(nodeId, meta)` (a JS `Map`
holds one binding per key; binding order is irrelevant to the pool). -/
def setConn (r : Registry) (id : String) (m : ConnMeta) : Registry :=
  (id, m) :: delConn r id

/-- `SSHPool.removeConnection(nodeId)`: when an entry exists, end its
client (`conn.client.end()`, reported as the second component) and delete
it from the registry; otherwise a no-op. -/
def removeConnection (r : Registry) (id : String) : Registry × Option Nat :=
  match findConn r id with
  | some m => (delConn r id, some m.clientId)
  | none => (r, none)

/-- Terminal transport events a pooled client can emit. -/
inductive TransportEvent where
  | errored
  | closed
  | ended
deriving DecidableEq, Repr

/-- The handlers installed on every pooled client in `createConnection`:
`'error'` does `this.connections.delete(nodeId)` directly; `'close'` and
`'end'` call `removeConnection`. All run synchronously on the event. -/
def handleTransportEvent (r : Registry) (id : String)
    (ev : TransportEvent) : Registry :=
  match ev with
  | .errored => delConn r id
  | .closed => (removeConnection r id).1
  | .ended => (removeConnection r id).1

/-- Result of one `createConnection`/`getConnection` call: the settled
promise (`Except` of the surfaced error or the returned client's id), the
number of network connect attempts performed, the backoff delays awaited
between attempts, and the resulting registry. -/
structure AcquireOutcome where
  result : Except String Nat
  attempts : Nat
  delays : List Nat
  registry : Registry
deriving Repr

/-- Outcome of one network connect attempt: the client emits `ready`, or
emits `error`, or emits neither before the pool's connect timer fires. -/
inductive ConnectOutcome where
  | ready (clientId : Nat)
  | errored
  | hung
deriving DecidableEq, Repr

/-- The connect-timer rejection message,
`Connection timeout (<connectTimeout>ms)`. -/
def connectTimeoutMsg (connectTimeout : Nat) : String :=
  "Connection timeout (" ++ toString connectTimeout ++ "ms)"

/-- `SSHPool.createConnection(node, retryCount)`. The network is the
parameter `net` giving the outcome of attempt number `k`. On `ready` the
client is pooled with `useCount := 1` and returned. On an `error` event
(message `errOf k`) the entry is deleted, and while
`retryCount < maxRetries` the call waits `2 ^ retryCount * 500` ms and
recurses with `retryCount + 1`; after the last retry fails, the final
attempt's error is surfaced. When neither signal arrives, the connect
timer ends the client and rejects with the timeout message — no retry and
no registry change. -/
def createConnection (id : String) (now maxRetries connectTimeout : Nat)
    (net : Nat → ConnectOutcome) (errOf : Nat → String)
    (r : Registry) (retryCount : Nat) : AcquireOutcome :=
  match net retryCount with
  | .ready cid =>
    let meta : ConnMeta :=
      { clientId := cid, sockWritable := true,
        createdAt := now, lastUsed := now, useCount := 1 }
    ⟨.ok cid, 1, [], setConn r id meta⟩
  | .errored =>
    let r1 := delConn r id
    if retryCount < maxRetries then
      let rest := createConnection id now maxRetries connectTimeout net errOf
        r1 (retryCount + 1)
      ⟨rest.result, rest.attempts + 1, 2 ^ retryCount * 500 :: rest.delays,
        rest.registry⟩
    else
      ⟨.error (errOf retryCount), 1, [], r1⟩
  | .hung => ⟨.error (connectTimeoutMsg connectTimeout), 1, [], r⟩
termination_by maxRetries - retryCount

/-- `SSHPool.getConnection(node)`: a registry entry with a writable socket
is reused — its `lastUsed` is set to now, its `useCount` incremented, and
its client returned with no connect attempt; a dead entry is removed
(`removeConnection(nodeId, 'dead')`) before `createConnection`; an absent
entry goes straight to `createConnection`. -/
def getConnection (id : String) (now maxRetries connectTimeout : Nat)
    (net : Nat → ConnectOutcome) (errOf : Nat → String)
    (r : Registry) : AcquireOutcome :=
  match findConn r id with
  | some existing =>
    if existing.sockWritable then
      ⟨.ok existing.clientId, 0, [],
        setConn r id
          { existing with lastUsed := now, useCount := existing.useCount + 1 }⟩
    else
      createConnection id now maxRetries connectTimeout net errOf
        (removeConnection r id).1 0
  | none => createConnection id now maxRetries connectTimeout net errOf r 0

/-- Behaviour of the remote side for one pooled `exec` call: the command
does not complete within the exec timeout, or `client.exec` yields an
error, or the command completes in time with chunks and an exit code. -/
inductive ExecBehavior where
  | timesOut
  | execErr (msg : String)
  | completes (chunks : List NodeSSH.StreamChunk) (code : Nat)
deriving DecidableEq, Repr

/-- Outcome of `SSHPool.exec`'s promise. -/
inductive PoolExecOutcome where
  | timeoutError (msg : String)
  | execError (msg : String)
  | ok (r : NodeSSH.ExecResult)
deriving DecidableEq, Repr

/-- The timeout rejection message,
`Exec timeout (<t>ms): <command.substring(0, 50)>`. -/
def execTimeoutMsg (execTimeout : Nat) (command : String) : String :=
  "Exec timeout (" ++ toString execTimeout ++ "ms): " ++ command.take 50

/-- The promise body of `SSHPool.exec(node, command)` after the client has
been acquired (so `r` is the post-acquire registry holding the entry for
`id`). On timer expiry the promise rejects with the timeout error — the
handler performs no registry operation. On a `client.exec` error the entry
is removed (`removeConnection(nodeId, 'exec error')`) and the promise
rejects. On completion the promise resolves with the exit code and the
two buffers. -/
def exec (r : Registry) (id : String) (execTimeout : Nat) (command : String)
    (beh : ExecBehavior) : PoolExecOutcome × Registry :=
  match beh with
  | .timesOut => (.timeoutError (execTimeoutMsg execTimeout command), r)
  | .execErr msg => (.execError msg, (removeConnection r id).1)
  | .completes chunks code =>
    (.ok ⟨code, NodeSSH.collectOut chunks, NodeSSH.collectErr chunks⟩, r)

/-- `SSHPool.cleanup()`: walk the registry; every entry whose idle time
`now - lastUsed` strictly exceeds `maxIdleTime` is removed and its client
ended (ids of ended clients collected in the second component); every
other entry is kept. -/
def cleanup : Registry → Nat → Nat → Registry × List Nat
  | [], _, _ => ([], [])
  | (id, m) :: rest, now, maxIdleTime =>
    let done := cleanup rest now maxIdleTime
    if now - m.lastUsed > maxIdleTime then
      (done.1, m.clientId :: done.2)
    else
      ((id, m) :: done.1, done.2)

end SSHPool

namespace Firewall

/-- One NAT `PREROUTING` redirect rule as manipulated by
`setupPortHopping`: address family (`true` = iptables/IPv4, `false` =
ip6tables/IPv6), optional bound interface (`-i iface`; `none` is the
interface-agnostic form), the UDP destination-port range
`--dport lo:hi`, and the redirect target `--to-port`. -/
structure Rule where
  v4 : Bool
  iface : Option String
  dportLo : Nat
  dportHi : Nat
  toPort : Nat
deriving DecidableEq, Repr

/-- The NAT `PREROUTING` chains (both families), in rule order. -/
abbrev Chain := List Rule

/-- One firewall command of the port-hopping script: `-D` (delete) or
`-A` (append). -/
inductive Cmd where
  | del (r : Rule)
  | add (r : Rule)
deriving DecidableEq, Repr

/-- `iptables -t nat -D PREROUTING …`: remove the first matching rule;
with `|| true`, a miss is a no-op. -/
def deleteRule : Chain → Rule → Chain
  | [], _ => []
  | x :: xs, r => if x = r then xs else x :: deleteRule xs r

/-- `iptables -t nat -A PREROUTING …`: append the rule. -/
def appendRule (ch : Chain) (r : Rule) : Chain :=
  ch ++ [r]

/-- Run one script command on the chain state. -/
def runCmd (ch : Chain) : Cmd → Chain
  | .del r => deleteRule ch r
  | .add r => appendRule ch r

/-- Run a command sequence left to right. -/
def runScript (ch : Chain) (cmds : List Cmd) : Chain :=
  cmds.foldl runCmd ch

/-- The fixed list of common interface names swept for legacy
interface-bound rules: `for iface in eth0 eth1 ens3 ens5 enp0s3 eno1`. -/
def ifaceList : List String :=
  ["eth0", "eth1", "ens3", "ens5", "enp0s3", "eno1"]

/-- The interface-agnostic redirect rule for a range. -/
def agnosticRule (fam : Bool) (lo hi p : Nat) : Rule :=
  ⟨fam, none, lo, hi, p⟩

/-- A legacy interface-bound redirect rule for a range. -/
def ifaceRule (fam : Bool) (i : String) (lo hi p : Nat) : Rule :=
  ⟨fam, some i, lo, hi, p⟩

/-- The rules deleted by the cleanup phase of the script, in order: the
interface-agnostic IPv4 and IPv6 forms, then for each common interface
name the bound IPv4 and IPv6 variants. -/
def cleanupRules (lo hi p : Nat) : List Rule :=
  [agnosticRule true lo hi p, agnosticRule false lo hi p] ++
    ifaceList.flatMap (fun i => [ifaceRule true i lo hi p, ifaceRule false i lo hi p])

/-- The firewall commands of the `setupPortHopping` script, in script
order: all deletions first, then the two appends of the new
interface-agnostic rules. (The script's UFW allow, rule persistence and
final `echo` do not touch the NAT chain.) -/
def setupScript (lo hi p : Nat) : List Cmd :=
  (cleanupRules lo hi p).map Cmd.del ++
    [Cmd.add (agnosticRule true lo hi p), Cmd.add (agnosticRule false lo hi p)]

/-- `NodeSSH.setupPortHopping(portRange)`'s effect on the NAT chain, for
range `lo-hi` redirecting to main port `p`. -/
def setupPortHopping (ch : Chain) (lo hi p : Nat) : Chain :=
  runScript ch (setupScript lo hi p)

/-- Number of occurrences of a rule in the chain. -/
def countRule : Chain → Rule → Nat
  | [], _ => 0
  | x :: xs, r => (if x = r then 1 else 0) + countRule xs r

/-- JS `portRange.split('-').map(Number)` destructured to
`[startPort, endPort]`, for well-formed `"lo-hi"` inputs. -/
def parseRange (s : String) : Nat × Nat :=
  match s.splitOn "-" with
  | [a, b] => ((a.toNat?).getD 0, (b.toNat?).getD 0)
  | _ => (0, 0)

end Firewall

namespace Stats

/-- Decimal value of a digit list (most significant first). -/
def digitsVal (acc : Nat) : List Char → Nat
  | [] => acc
  | d :: ds => digitsVal (acc * 10 + (d.toNat - 48)) ds

/-- Leading-digits numeric parse: JS `parseInt(tok) || d` on the
non-negative tokens these parsers see (`parseInt` of a token with no
leading digits is `NaN`, which `||` replaces with the default; a result
of `0` is falsy and is also replaced by the default). -/
def jsParseInt (tok : String) (dflt : Nat) : Nat :=
  let ds := tok.data.takeWhile Char.isDigit
  if ds.isEmpty then dflt
  else if digitsVal 0 ds = 0 then dflt else digitsVal 0 ds

/-- Strip leading and trailing whitespace, JS `line.trim()`. -/
def jsTrim (s : String) : String :=
  String.mk (((s.data.dropWhile Char.isWhitespace).reverse.dropWhile
    Char.isWhitespace).reverse)

/-- Maximal runs of non-whitespace characters (accumulator holds the
current token reversed). -/
def wsTokensAux : List Char → List Char → List (List Char)
  | [], acc => if acc.isEmpty then [] else [acc.reverse]
  | c :: rest, acc =>
    if c.isWhitespace then
      if acc.isEmpty then wsTokensAux rest []
      else acc.reverse :: wsTokensAux rest []
    else wsTokensAux rest (c :: acc)

/-- Whitespace-token split of a line, JS `line.trim().split(/\s+/)` (on
the non-blank lines these parsers split, the two agree: the tokens are the
maximal non-whitespace runs). -/
def splitWs (s : String) : List String :=
  (wsTokensAux s.data []).map String.mk

/-- Split a string at every newline, JS `output.split('\n')` (empty pieces
kept). -/
def splitNl : List Char → List (List Char)
  | [] => [[]]
  | c :: rest =>
    if c = '\n' then [] :: splitNl rest
    else
      match splitNl rest with
      | [] => [[c]]
      | l :: ls => (c :: l) :: ls

/-- The percentage computation
`total > 0 ? Math.round((used / total) * 100) : 0`, in exact arithmetic:
`Math.round` is round-half-up, `⌊used * 100 / total + 1 / 2⌋`. -/
def roundPct (used total : Nat) : Nat :=
  if total > 0 then (200 * used + total) / (2 * total) else 0

/-- Memory figures parsed from the `free -b` line. -/
structure MemStats where
  total : Nat
  used : Nat
  free : Nat
  percent : Nat
deriving DecidableEq, Repr

/-- Disk figures parsed from the `df -B1` line. -/
structure DiskStats where
  total : Nat
  used : Nat
  free : Nat
  percent : Nat
deriving DecidableEq, Repr

/-- Accumulator of the `getSystemStats` line parser: the current section
marker plus the fields built so far. The floating-point load averages of
the CPU section are outside this model (their parse has no effect here);
`uptime` is `Math.floor` of a non-negative decimal, i.e. its leading
integer digits. -/
structure ParseState where
  sect : String
  cores : Nat
  mem : MemStats
  disk : DiskStats
  uptime : Nat
deriving DecidableEq, Repr

/-- The initial accumulator: `cores: 1`, all other figures zero. -/
def initState : ParseState :=
  ⟨"", 1, ⟨0, 0, 0, 0⟩, ⟨0, 0, 0, 0⟩, 0⟩

/-- One step of the `getSystemStats` parser loop: a line containing a
section marker switches the section (and is consumed); otherwise a
non-blank line is parsed according to the current section. Memory uses
tokens 1 (total), 2 (used), 3 (free) of the `Mem:` line; disk uses tokens
1, 2, 3 of the `df` line; missing tokens default to 0; percent is
`roundPct used total`. -/
def statsLine (st : ParseState) (line : String) : ParseState :=
  if strIncludes line "===CPU===" then { st with sect := "cpu" }
  else if strIncludes line "===CORES===" then { st with sect := "cores" }
  else if strIncludes line "===MEM===" then { st with sect := "mem" }
  else if strIncludes line "===DISK===" then { st with sect := "disk" }
  else if strIncludes line "===UPTIME===" then { st with sect := "uptime" }
  else if jsTrim line = "" then st
  else if st.sect = "cores" then { st with cores := jsParseInt (jsTrim line) 1 }
  else if st.sect = "mem" then
    let parts := splitWs line
    let total := jsParseInt (parts.getD 1 "") 0
    let used := jsParseInt (parts.getD 2 "") 0
    let free := jsParseInt (parts.getD 3 "") 0
    { st with mem := ⟨total, used, free, roundPct used total⟩ }
  else if st.sect = "disk" then
    let parts := splitWs line
    let total := jsParseInt (parts.getD 1 "") 0
    let used := jsParseInt (parts.getD 2 "") 0
    let free := jsParseInt (parts.getD 3 "") 0
    { st with disk := ⟨total, used, free, roundPct used total⟩ }
  else if st.sect = "uptime" then
    { st with uptime := jsParseInt (jsTrim line) 0 }
  else st

/-- The parsing phase of `NodeSSH.getSystemStats`, applied to the stdout
of the one combined stats command: split on newlines and fold the line
parser. -/
def getSystemStats (stdout : String) : ParseState :=
  ((splitNl stdout.data).map String.mk).foldl statsLine initState

/-- A remote stats output in the shape emitted by the combined command,
with memory line `Mem: 1000 400 600`. -/
def sampleOutput : String :=
  "===CPU===\n0.15 0.10 0.05 1/123 456\n===CORES===\n4\n===MEM===\n" ++
    "Mem: 1000 400 600\n===DISK===\n/dev/sda1 1000000 450000 550000 45% /\n" ++
    "===UPTIME===\n12345.67"

end Stats

namespace CryptoService

/-- UTF-8 encoding of one Unicode code point. -/
def utf8EncodeCp (n : Nat) : List Nat :=
  if n < 0x80 then [n]
  else if n < 0x800 then [0xC0 + n / 64, 0x80 + n % 64]
  else if n < 0x10000 then
    [0xE0 + n / 4096, 0x80 + n / 64 % 64, 0x80 + n % 64]
  else
    [0xF0 + n / 262144, 0x80 + n / 4096 % 64, 0x80 + n / 64 % 64, 0x80 + n % 64]

/-- UTF-8 encoding of a character sequence (the library's `Utf8.parse` of
the plaintext string). -/
def utf8Encode (cs : List Char) : List Nat :=
  cs.flatMap (fun c => utf8EncodeCp c.toNat)

/-- UTF-8 decoding state machine: `pending` continuation bytes are still
expected for the code point accumulated so far in `acc`. A lead byte
selects the sequence length; each continuation byte must lie in
`[0x80, 0xC0)`; a completed code point is consed onto the decode of the
remainder; any malformed byte yields `none`. -/
def utf8DecodeAux : List Nat → Nat → Nat → Option (List Nat)
  | [], pending, _ => if pending = 0 then some [] else none
  | b :: rest, pending, acc =>
    if pending = 0 then
      if b < 0x80 then (utf8DecodeAux rest 0 0).map (b :: ·)
      else if b < 0xC0 then none
      else if b < 0xE0 then utf8DecodeAux rest 1 (b - 0xC0)
      else if b < 0xF0 then utf8DecodeAux rest 2 (b - 0xE0)
      else if b < 0xF8 then utf8DecodeAux rest 3 (b - 0xF0)
      else none
    else
      if 0x80 ≤ b ∧ b < 0xC0 then
        if pending = 1 then
          (utf8DecodeAux rest 0 0).map ((acc * 64 + (b - 0x80)) :: ·)
        else utf8DecodeAux rest (pending - 1) (acc * 64 + (b - 0x80))
      else none

/-- UTF-8 decoding to code points (the library's `Utf8.stringify`);
`none` is its malformed-UTF-8 failure. -/
def utf8Decode (l : List Nat) : Option (List Nat) :=
  utf8DecodeAux l 0 0

/-- PKCS7 padding to the 16-byte AES block size, as the library applies
before encryption: append `k` copies of `k` where `k = 16 - len % 16`. -/
def pkcs7Pad (b : List Nat) : List Nat :=
  b ++ List.replicate (16 - b.length % 16) (16 - b.length % 16)

/-- PKCS7 unpadding after decryption: read the final byte `k` and drop the
last `k` bytes. -/
def pkcs7Unpad (b : List Nat) : List Nat :=
  match b.getLast? with
  | some k => b.take (b.length - k)
  | none => []

/-- Serialized ciphertext, the `.toString()` form: a random salt together
with the ciphertext bytes (OpenSSL `Salted__` layout, base64 transport
elided). -/
structure CipherParams where
  salt : List Nat
  ciphertext : List Nat
deriving DecidableEq, Repr

/-- Modelled from the spec: the keyed AES-CBC block-cipher layer of the
external crypto library (per the spec, credential decryption is an
"external collaborator"); its key-derivation-plus-cipher is abstracted as
a pair of byte transformations parameterized by passphrase and salt. -/
structure BlockCipher where
  enc : String → List Nat → List Nat → List Nat
  dec : String → List Nat → List Nat → List Nat

/-- The `CryptoService` class: holds the fixed `ENCRYPTION_KEY`. -/
structure Service where
  key : String

/-- `CryptoService.encrypt(data)`:
`AES.encrypt(String(data), this.key).toString()` — UTF-8 encode the
(already-string) plaintext, pad, encrypt under the fixed key and the
call's random salt. -/
def Service.encrypt (svc : Service) (bc : BlockCipher) (salt : List Nat)
    (data : String) : CipherParams :=
  ⟨salt, bc.enc svc.key salt (pkcs7Pad (utf8Encode data.data))⟩

/-- `CryptoService.decrypt(encryptedData)`:
`AES.decrypt(encryptedData, this.key).toString(enc.Utf8)` — decrypt under
the fixed key and the embedded salt, unpad, UTF-8 decode (`none` is the
library's malformed-UTF-8 exception). -/
def Service.decrypt (svc : Service) (bc : BlockCipher)
    (ct : CipherParams) : Option String :=
  match utf8Decode (pkcs7Unpad (bc.dec svc.key ct.salt ct.ciphertext)) with
  | some cps => some (String.mk (cps.map Char.ofNat))
  | none => none

end CryptoService

/-! ## Shared registry lemmas -/

theorem SSHPool.findConn_delConn_self (r : SSHPool.Registry) (id : String) :
    SSHPool.findConn (SSHPool.delConn r id) id = none := by
  induction r with
  | nil => rfl
  | cons p rest ih =>
    obtain ⟨k, m⟩ := p
    by_cases h : k = id <;> simp [SSHPool.delConn, SSHPool.findConn, h, ih]

theorem SSHPool.findConn_setConn_self (r : SSHPool.Registry) (id : String)
    (m : SSHPool.ConnMeta) :
    SSHPool.findConn (SSHPool.setConn r id m) id = some m := by
  simp [SSHPool.setConn, SSHPool.findConn]

theorem SSHPool.findConn_removeConnection_self (r : SSHPool.Registry)
    (id : String) :
    SSHPool.findConn (SSHPool.removeConnection r id).1 id = none := by
  unfold SSHPool.removeConnection
  cases h : SSHPool.findConn r id with
  | some m => simpa using SSHPool.findConn_delConn_self r id
  | none => simpa using h

/-! ## C1 — updateConfig rollback on validation failure -/

/-- C1: for every validator behaviour, reload outcome, remote file-system
state and new config text, if the validation subcommand's combined output
contains the error marker, then `updateConfig` reports failure and the
live config file's content is restored to exactly the pre-call content
(the backup is moved back over the live path); the new config is not
applied. -/
theorem NodeSSH.updateConfig_validation_failure_rolls_back
    (validate : String → NodeSSH.CheckOutput) (reloadOk : Bool)
    (fs : NodeSSH.RemoteFS) (newConfig : String)
    (h : NodeSSH.validationFails (validate newConfig) = true) :
    (NodeSSH.updateConfig validate reloadOk fs newConfig).1 = false ∧
      ((NodeSSH.updateConfig validate reloadOk fs newConfig).2).config =
        fs.config := by
  simp [NodeSSH.updateConfig, h]

/-- C1 witness: a validator that reports `error: failed to parse` makes
`updateConfig` of `"new"` over live content `"old"` fail and leave the
live content `"old"`. -/
theorem NodeSSH.updateConfig_validation_failure_rolls_back_witness :
    NodeSSH.validationFails
        ((fun _ => ⟨"error: failed to parse", ""⟩ :
          String → NodeSSH.CheckOutput) "new") = true ∧
      ((NodeSSH.updateConfig (fun _ => ⟨"error: failed to parse", ""⟩) true
          ⟨"old", none⟩ "new").1 = false ∧
        ((NodeSSH.updateConfig (fun _ => ⟨"error: failed to parse", ""⟩) true
            ⟨"old", none⟩ "new").2).config = "old") :=
  ⟨by decide,
    NodeSSH.updateConfig_validation_failure_rolls_back
      (fun _ => ⟨"error: failed to parse", ""⟩) true ⟨"old", none⟩ "new"
      (by decide)⟩

/-! ## C9 — transport exec raises-iff contract -/

/-- C9: `NodeSSH.exec` rejects with the not-connected error iff
`this.client` is absent; it rejects with an exec error iff the client is
present and the remote refused to start the command; and with a present
client and a completing command it resolves with the exit code verbatim
and stdout/stderr captured in two independent buffers — in particular a
nonzero exit code never causes rejection. -/
theorem NodeSSH.exec_raises_iff (clientPresent : Bool)
    (beh : NodeSSH.RemoteBehavior) :
    (NodeSSH.exec clientPresent beh = .notConnected ↔ clientPresent = false) ∧
      (∀ msg, NodeSSH.exec clientPresent beh = .execError msg ↔
        clientPresent = true ∧ beh = .refuse msg) ∧
      (∀ chunks code, NodeSSH.exec true (.run chunks code) =
        .ok ⟨code, NodeSSH.collectOut chunks, NodeSSH.collectErr chunks⟩) := by
  refine ⟨?_, ?_, fun chunks code => rfl⟩ <;>
    cases clientPresent <;> cases beh <;> simp [NodeSSH.exec]

/-! ## C5 — terminal transport events remove the registry entry -/

/-- C5: after the synchronous handler of any terminal transport event
(`error`, `close`, `end`) for a node id runs, the registry holds no entry
for that id — no registry entry survives a dead connection. -/
theorem SSHPool.terminal_event_removes_entry (r : SSHPool.Registry)
    (id : String) (ev : SSHPool.TransportEvent) :
    SSHPool.findConn (SSHPool.handleTransportEvent r id ev) id = none := by
  cases ev with
  | errored => exact SSHPool.findConn_delConn_self r id
  | closed => exact SSHPool.findConn_removeConnection_self r id
  | ended => exact SSHPool.findConn_removeConnection_self r id

/-! ## C2 — pool exec timeout / transport error and eviction -/

/-- C2 counterexample: a pooled entry for node `n1` and a command that
exceeds the exec timeout. The call fails with the timeout error, but the
session is NOT evicted: the registry still holds the entry for `n1`
afterwards, refuting the claimed eviction on timeout. -/
theorem SSHPool.exec_timeout_does_not_evict_cex :
    (SSHPool.exec [("n1", (⟨1, true, 0, 0, 1⟩ : SSHPool.ConnMeta))] "n1"
        30000 "uptime" .timesOut).1 =
      .timeoutError (SSHPool.execTimeoutMsg 30000 "uptime") ∧
      SSHPool.findConn
          (SSHPool.exec [("n1", (⟨1, true, 0, 0, 1⟩ : SSHPool.ConnMeta))] "n1"
            30000 "uptime" .timesOut).2 "n1" =
        some (⟨1, true, 0, 0, 1⟩ : SSHPool.ConnMeta) :=
  ⟨rfl, rfl⟩

/-- C2 amended: exceeding the per-call timeout fails with the
`Exec timeout` error but performs no eviction — the registry is returned
unchanged; a transport-level error during exec does evict the session
(the entry for the node id is removed, so its lookup misses). -/
theorem SSHPool.exec_timeout_and_transport_error_behavior
    (r : SSHPool.Registry) (id : String) (t : Nat) (cmd : String) :
    (SSHPool.exec r id t cmd .timesOut =
        (.timeoutError (SSHPool.execTimeoutMsg t cmd), r)) ∧
      (∀ msg, SSHPool.exec r id t cmd (.execErr msg) =
          (.execError msg, (SSHPool.removeConnection r id).1) ∧
        SSHPool.findConn (SSHPool.exec r id t cmd (.execErr msg)).2 id =
          none) := by
  refine ⟨rfl, fun msg => ⟨rfl, ?_⟩⟩
  exact SSHPool.findConn_removeConnection_self r id

/-! ## Firewall counting lemmas -/

theorem Firewall.countRule_deleteRule_self (ch : Firewall.Chain)
    (r : Firewall.Rule) :
    Firewall.countRule (Firewall.deleteRule ch r) r =
      Firewall.countRule ch r - 1 := by
  induction ch with
  | nil => rfl
  | cons x xs ih =>
    by_cases h : x = r
    · simp [Firewall.deleteRule, Firewall.countRule, h]
    · simp [Firewall.deleteRule, Firewall.countRule, h, ih]

theorem Firewall.countRule_deleteRule_ne (ch : Firewall.Chain)
    (r rr : Firewall.Rule) (h : rr ≠ r) :
    Firewall.countRule (Firewall.deleteRule ch r) rr =
      Firewall.countRule ch rr := by
  induction ch with
  | nil => rfl
  | cons x xs ih =>
    by_cases hx : x = r
    · subst hx
      simp [Firewall.deleteRule, Firewall.countRule, Ne.symm h]
    · simp [Firewall.deleteRule, Firewall.countRule, hx, ih]

theorem Firewall.countRule_appendRule (ch : Firewall.Chain)
    (r rr : Firewall.Rule) :
    Firewall.countRule (Firewall.appendRule ch r) rr =
      Firewall.countRule ch rr + (if r = rr then 1 else 0) := by
  induction ch with
  | nil => simp [Firewall.appendRule, Firewall.countRule]
  | cons x xs ih =>
    simp [Firewall.appendRule, Firewall.countRule] at ih ⊢
    omega

theorem Firewall.countRule_runScript_dels (l : List Firewall.Rule) :
    ∀ (ch : Firewall.Chain) (rr : Firewall.Rule), rr ∉ l →
      Firewall.countRule (Firewall.runScript ch (l.map Firewall.Cmd.del)) rr =
        Firewall.countRule ch rr := by
  induction l with
  | nil => intro ch rr _; rfl
  | cons x xs ih =>
    intro ch rr hmem
    rw [List.mem_cons, not_or] at hmem
    simp only [List.map_cons, Firewall.runScript, List.foldl_cons,
      Firewall.runCmd]
    rw [show List.foldl Firewall.runCmd (Firewall.deleteRule ch x)
        (xs.map Firewall.Cmd.del) =
      Firewall.runScript (Firewall.deleteRule ch x)
        (xs.map Firewall.Cmd.del) from rfl]
    rw [ih (Firewall.deleteRule ch x) rr hmem.2]
    exact Firewall.countRule_deleteRule_ne ch x rr hmem.1

theorem Firewall.agnostic_ne_iface (fam fam2 : Bool) (i : String)
    (lo hi p lo2 hi2 p2 : Nat) :
    Firewall.agnosticRule fam lo hi p ≠ Firewall.ifaceRule fam2 i lo2 hi2 p2 := by
  simp [Firewall.agnosticRule, Firewall.ifaceRule]

/-- Master count lemma: one `setupPortHopping` run for range `lo-hi`,
main port `p`, sets the occurrence count of each of its two new
interface-agnostic rules to `(previous - 1) + 1` (one deletion, one
append), and leaves the count of every other interface-agnostic rule
unchanged. -/
theorem Firewall.count_setup_agnostic (ch : Firewall.Chain) (lo hi p : Nat)
    (r : Firewall.Rule) (hr : r.iface = none) :
    Firewall.countRule (Firewall.setupPortHopping ch lo hi p) r =
      if r = Firewall.agnosticRule true lo hi p ∨
          r = Firewall.agnosticRule false lo hi p
      then (Firewall.countRule ch r - 1) + 1
      else Firewall.countRule ch r := by
  have hsetup : Firewall.setupPortHopping ch lo hi p =
      Firewall.appendRule
        (Firewall.appendRule
          (Firewall.runScript
            (Firewall.deleteRule
              (Firewall.deleteRule ch (Firewall.agnosticRule true lo hi p))
              (Firewall.agnosticRule false lo hi p))
            ((Firewall.ifaceList.flatMap (fun i =>
              [Firewall.ifaceRule true i lo hi p,
               Firewall.ifaceRule false i lo hi p])).map Firewall.Cmd.del))
          (Firewall.agnosticRule true lo hi p))
        (Firewall.agnosticRule false lo hi p) := by
    simp [Firewall.setupPortHopping, Firewall.setupScript,
      Firewall.cleanupRules, Firewall.runScript, Firewall.runCmd,
      List.foldl_append]
  have hnotin : r ∉ Firewall.ifaceList.flatMap (fun i =>
      [Firewall.ifaceRule true i lo hi p,
       Firewall.ifaceRule false i lo hi p]) := by
    intro hmem
    simp only [List.mem_flatMap, List.mem_cons, List.not_mem_nil,
      or_false] at hmem
    obtain ⟨i, -, hcase⟩ := hmem
    rcases hcase with hcase | hcase <;>
      (rw [hcase] at hr; simp [Firewall.ifaceRule] at hr)
  have hne46 : Firewall.agnosticRule true lo hi p ≠
      Firewall.agnosticRule false lo hi p := by
    simp [Firewall.agnosticRule]
  rw [hsetup, Firewall.countRule_appendRule, Firewall.countRule_appendRule,
    Firewall.countRule_runScript_dels _ _ r hnotin]
  by_cases h4 : r = Firewall.agnosticRule true lo hi p
  · subst h4
    rw [Firewall.countRule_deleteRule_ne _ _ _ hne46,
      Firewall.countRule_deleteRule_self]
    simp [hne46.symm]
  · by_cases h6 : r = Firewall.agnosticRule false lo hi p
    · subst h6
      rw [Firewall.countRule_deleteRule_self,
        Firewall.countRule_deleteRule_ne _ _ _ (Ne.symm hne46)]
      simp [hne46]
    · have h4' : Firewall.agnosticRule true lo hi p ≠ r := fun hh => h4 hh.symm
      have h6' : Firewall.agnosticRule false lo hi p ≠ r := fun hh => h6 hh.symm
      rw [Firewall.countRule_deleteRule_ne _ _ _ h6,
        Firewall.countRule_deleteRule_ne _ _ _ h4]
      simp [h4, h6, h4', h6']

theorem Firewall.count_eq_one_after_setup_self (ch : Firewall.Chain)
    (lo hi p : Nat) (fam : Bool)
    (h : Firewall.countRule ch (Firewall.agnosticRule fam lo hi p) ≤ 1) :
    Firewall.countRule (Firewall.setupPortHopping ch lo hi p)
      (Firewall.agnosticRule fam lo hi p) = 1 := by
  rw [Firewall.count_setup_agnostic ch lo hi p _ rfl]
  cases fam
  · rw [if_pos (Or.inr rfl)]; omega
  · rw [if_pos (Or.inl rfl)]; omega

theorem Firewall.count_le_one_after_setup (ch : Firewall.Chain)
    (lo hi p : Nat) (r : Firewall.Rule) (hr : r.iface = none)
    (h : Firewall.countRule ch r ≤ 1) :
    Firewall.countRule (Firewall.setupPortHopping ch lo hi p) r ≤ 1 := by
  rw [Firewall.count_setup_agnostic ch lo hi p r hr]
  split <;> omega

/-! ## C3 — getConnection reuse, dead-entry eviction, one connect -/

/-- C3: a registry entry with a writable transport is reused — its
`lastUsed` becomes now, its `useCount` increments, its client is returned,
and no connect attempt happens; a non-writable entry is evicted before
`createConnection` runs; and starting from an absent entry with a
first-attempt connect success, two acquires perform exactly one connect
attempt in total and both return the same client. -/
theorem SSHPool.getConnection_reuse_single_connect
    (r : SSHPool.Registry) (id : String) (now now2 maxRetries cto : Nat)
    (net : Nat → SSHPool.ConnectOutcome) (errOf : Nat → String) :
    (∀ m, SSHPool.findConn r id = some m → m.sockWritable = true →
      SSHPool.getConnection id now maxRetries cto net errOf r =
        ⟨.ok m.clientId, 0, [],
          SSHPool.setConn r id
            { m with lastUsed := now, useCount := m.useCount + 1 }⟩) ∧
      (∀ m, SSHPool.findConn r id = some m → m.sockWritable = false →
        SSHPool.getConnection id now maxRetries cto net errOf r =
          SSHPool.createConnection id now maxRetries cto net errOf
            (SSHPool.delConn r id) 0) ∧
      (∀ cid, SSHPool.findConn r id = none → net 0 = .ready cid →
        (SSHPool.getConnection id now maxRetries cto net errOf r).attempts +
            (SSHPool.getConnection id now2 maxRetries cto net errOf
              (SSHPool.getConnection id now maxRetries cto net errOf
                r).registry).attempts = 1 ∧
          (SSHPool.getConnection id now maxRetries cto net errOf r).result =
            .ok cid ∧
          (SSHPool.getConnection id now2 maxRetries cto net errOf
              (SSHPool.getConnection id now maxRetries cto net errOf
                r).registry).result = .ok cid) := by
  refine ⟨?_, ?_, ?_⟩
  · intro m hm hw
    simp [SSHPool.getConnection, hm, hw]
  · intro m hm hw
    simp [SSHPool.getConnection, SSHPool.removeConnection, hm, hw]
  · intro cid hm hnet
    have h1 : SSHPool.getConnection id now maxRetries cto net errOf r =
        ⟨.ok cid, 1, [],
          SSHPool.setConn r id
            ⟨cid, true, now, now, 1⟩⟩ := by
      simp [SSHPool.getConnection, hm]
      unfold SSHPool.createConnection
      simp [hnet]
    have h2 : SSHPool.findConn
        (SSHPool.setConn r id (⟨cid, true, now, now, 1⟩ : SSHPool.ConnMeta))
        id = some ⟨cid, true, now, now, 1⟩ :=
      SSHPool.findConn_setConn_self r id _
    rw [h1]
    simp [SSHPool.getConnection, h2]

/-- C3 witness: with an empty registry and a network whose first attempt
succeeds with client 7, two acquires total exactly one connect attempt and
both return client 7. -/
theorem SSHPool.getConnection_reuse_single_connect_witness :
    SSHPool.findConn ([] : SSHPool.Registry) "n1" = none ∧
      ((SSHPool.getConnection "n1" 0 2 15000 (fun _ => .ready 7)
            (fun _ => "e") []).attempts +
          (SSHPool.getConnection "n1" 10 2 15000 (fun _ => .ready 7)
            (fun _ => "e")
            (SSHPool.getConnection "n1" 0 2 15000 (fun _ => .ready 7)
              (fun _ => "e") []).registry).attempts = 1 ∧
        (SSHPool.getConnection "n1" 0 2 15000 (fun _ => .ready 7)
            (fun _ => "e") []).result = .ok 7 ∧
        (SSHPool.getConnection "n1" 10 2 15000 (fun _ => .ready 7)
            (fun _ => "e")
            (SSHPool.getConnection "n1" 0 2 15000 (fun _ => .ready 7)
              (fun _ => "e") []).registry).result = .ok 7) :=
  ⟨rfl,
    (SSHPool.getConnection_reuse_single_connect [] "n1" 0 10 2 15000
        (fun _ => .ready 7) (fun _ => "e")).2.2 7 rfl rfl⟩

/-! ## C4 — connect retries with exponential backoff -/

/-- Helper: with every connect attempt failing, a `createConnection` run
whose remaining retry budget is `d` performs `d + 1` attempts, waits
`2 ^ (c + i) * 500` before the `i`-th of its retries, and surfaces the
final attempt's error. -/
theorem SSHPool.createConnection_all_fail (id : String) (now cto : Nat)
    (net : Nat → SSHPool.ConnectOutcome) (errOf : Nat → String)
    (hnet : ∀ k, net k = .errored) :
    ∀ (d c : Nat) (r : SSHPool.Registry),
      (SSHPool.createConnection id now (c + d) cto net errOf r c).result =
          .error (errOf (c + d)) ∧
        (SSHPool.createConnection id now (c + d) cto net errOf r
            c).attempts = d + 1 ∧
        (SSHPool.createConnection id now (c + d) cto net errOf r c).delays =
          (List.range d).map (fun i => 2 ^ (c + i) * 500) := by
  intro d
  induction d with
  | zero =>
    intro c r
    unfold SSHPool.createConnection
    simp [hnet]
  | succ d ih =>
    intro c r
    have harg : c + (d + 1) = (c + 1) + d := by omega
    rw [harg]
    unfold SSHPool.createConnection
    rw [hnet c, if_pos (by omega : c < (c + 1) + d)]
    have hrec := ih (c + 1) (SSHPool.delConn r id)
    refine ⟨hrec.1, by simp [hrec.2.1], ?_⟩
    simp only [hrec.2.2, List.range_succ_eq_map, List.map_cons,
      List.map_map, List.cons.injEq]
    constructor
    · simp
    · apply List.map_congr_left
      intro i _
      have hci : c + 1 + i = c + (i + 1) := by omega
      simp [Function.comp, hci]

/-- C4: when every connect attempt fails, session creation performs
exactly `maxRetries` further attempts after the first failure
(`maxRetries + 1` attempts in all); the delay before the `k`-th retry
(counting from 0) is `500 * 2 ^ k` — base 500, doubling per attempt, so
the delays are strictly increasing — and the error surfaced to the caller
is the final attempt's. -/
theorem SSHPool.createConnection_backoff (id : String)
    (now maxRetries cto : Nat) (net : Nat → SSHPool.ConnectOutcome)
    (errOf : Nat → String)
    (r : SSHPool.Registry) (hnet : ∀ k, net k = .errored) :
    (SSHPool.createConnection id now maxRetries cto net errOf r 0).attempts =
        maxRetries + 1 ∧
      (SSHPool.createConnection id now maxRetries cto net errOf r 0).delays =
        (List.range maxRetries).map (fun k => 500 * 2 ^ k) ∧
      List.Chain' (· < ·)
        (SSHPool.createConnection id now maxRetries cto net errOf r 0).delays ∧
      (SSHPool.createConnection id now maxRetries cto net errOf r 0).result =
        .error (errOf maxRetries) := by
  have h := SSHPool.createConnection_all_fail id now cto net errOf hnet
    maxRetries 0 r
  rw [Nat.zero_add] at h
  have hdelays :
      (SSHPool.createConnection id now maxRetries cto net errOf r 0).delays =
        (List.range maxRetries).map (fun k => 500 * 2 ^ k) := by
    rw [h.2.2]
    apply List.map_congr_left
    intro i _
    rw [Nat.zero_add, Nat.mul_comm]
  refine ⟨h.2.1, hdelays, ?_, h.1⟩
  rw [hdelays]
  apply List.Pairwise.chain'
  refine List.Pairwise.map _ ?_ (List.pairwise_lt_range maxRetries)
  intro a b hab
  have hp : 2 ^ a < 2 ^ b := Nat.pow_lt_pow_right (by omega) hab
  omega

/-- C4 witness: `maxRetries = 2` and an always-failing network give 3
attempts in all, delays `[500, 1000]`, and the error of attempt 2. -/
theorem SSHPool.createConnection_backoff_witness :
    (SSHPool.createConnection "n1" 0 2 15000 (fun _ => .errored)
          (fun k => toString k) [] 0).attempts = 3 ∧
      (SSHPool.createConnection "n1" 0 2 15000 (fun _ => .errored)
          (fun k => toString k) [] 0).delays = [500, 1000] ∧
      (SSHPool.createConnection "n1" 0 2 15000 (fun _ => .errored)
          (fun k => toString k) [] 0).result = .error "2" := by
  have h := SSHPool.createConnection_backoff "n1" 0 2 15000
    (fun _ => .errored) (fun k => toString k) [] (fun _ => rfl)
  exact ⟨h.1, by rw [h.2.1]; rfl, by rw [h.2.2.2]; rfl⟩

/-! ## C6 — idle cleanup sweep -/

/-- C6: after one `cleanup` run, every entry whose idle time
`now - lastUsed` strictly exceeds the idle ceiling is gone from the
registry and its client has been ended, and every entry whose idle time
does not exceed the ceiling is still in the registry. -/
theorem SSHPool.cleanup_fst (r : SSHPool.Registry) (now maxIdleTime : Nat) :
    (SSHPool.cleanup r now maxIdleTime).1 =
      r.filter (fun p => !decide (now - p.2.lastUsed > maxIdleTime)) := by
  induction r with
  | nil => rfl
  | cons p rest ih =>
    obtain ⟨k, m⟩ := p
    by_cases h : now - m.lastUsed > maxIdleTime <;>
      simp [SSHPool.cleanup, h, ih]

theorem SSHPool.cleanup_snd (r : SSHPool.Registry) (now maxIdleTime : Nat) :
    (SSHPool.cleanup r now maxIdleTime).2 =
      (r.filter (fun p => decide (now - p.2.lastUsed > maxIdleTime))).map
        (fun p => p.2.clientId) := by
  induction r with
  | nil => rfl
  | cons p rest ih =>
    obtain ⟨k, m⟩ := p
    by_cases h : now - m.lastUsed > maxIdleTime <;>
      simp [SSHPool.cleanup, h, ih]

/-- C6: after one `cleanup` run, every entry whose idle time
`now - lastUsed` strictly exceeds the idle ceiling is gone from the
registry and its client has been ended, and every entry whose idle time
does not exceed the ceiling is still in the registry. -/
theorem SSHPool.cleanup_evicts_exactly_expired (r : SSHPool.Registry)
    (now maxIdleTime : Nat) (id : String) (m : SSHPool.ConnMeta)
    (hm : (id, m) ∈ r) :
    (now - m.lastUsed > maxIdleTime →
      (id, m) ∉ (SSHPool.cleanup r now maxIdleTime).1 ∧
        m.clientId ∈ (SSHPool.cleanup r now maxIdleTime).2) ∧
      (¬ now - m.lastUsed > maxIdleTime →
        (id, m) ∈ (SSHPool.cleanup r now maxIdleTime).1) := by
  constructor
  · intro hexp
    constructor
    · rw [SSHPool.cleanup_fst]
      intro hcontra
      rcases List.mem_filter.mp hcontra with ⟨-, hb⟩
      simp [hexp] at hb
    · rw [SSHPool.cleanup_snd]
      exact List.mem_map.mpr
        ⟨(id, m), List.mem_filter.mpr ⟨hm, by simpa using hexp⟩, rfl⟩
  · intro hno
    rw [SSHPool.cleanup_fst]
    exact List.mem_filter.mpr ⟨hm, by simpa using hno⟩

/-- C6 witness: with ceiling 120000 at time 200000, the entry last used at
time 0 (idle 200000) is evicted and its client ended, while the entry
touched at time 150000 (idle 50000) survives the sweep. -/
theorem SSHPool.cleanup_evicts_exactly_expired_witness :
    ("a", (⟨1, true, 0, 0, 3⟩ : SSHPool.ConnMeta)) ∈
        ([("a", (⟨1, true, 0, 0, 3⟩ : SSHPool.ConnMeta)),
          ("b", (⟨2, true, 0, 150000, 5⟩ : SSHPool.ConnMeta))] :
          SSHPool.Registry) ∧
      (200000 - (0 : Nat) > 120000 →
        ("a", (⟨1, true, 0, 0, 3⟩ : SSHPool.ConnMeta)) ∉
            (SSHPool.cleanup
              [("a", ⟨1, true, 0, 0, 3⟩), ("b", ⟨2, true, 0, 150000, 5⟩)]
              200000 120000).1 ∧
          1 ∈ (SSHPool.cleanup
              [("a", ⟨1, true, 0, 0, 3⟩), ("b", ⟨2, true, 0, 150000, 5⟩)]
              200000 120000).2) ∧
      (¬ 200000 - (150000 : Nat) > 120000 →
        ("b", (⟨2, true, 0, 150000, 5⟩ : SSHPool.ConnMeta)) ∈
          (SSHPool.cleanup
            [("a", ⟨1, true, 0, 0, 3⟩), ("b", ⟨2, true, 0, 150000, 5⟩)]
            200000 120000).1) :=
  ⟨by decide,
    fun _ =>
      (SSHPool.cleanup_evicts_exactly_expired
          [("a", ⟨1, true, 0, 0, 3⟩), ("b", ⟨2, true, 0, 150000, 5⟩)]
          200000 120000 "a" ⟨1, true, 0, 0, 3⟩ (by decide)).1 (by decide),
    (SSHPool.cleanup_evicts_exactly_expired
        [("a", ⟨1, true, 0, 0, 3⟩), ("b", ⟨2, true, 0, 150000, 5⟩)]
        200000 120000 "b" ⟨2, true, 0, 150000, 5⟩ (by decide)).2⟩

/-! ## C7 — port hopping removes old rules first, idempotent -/

/-- C7: the port-hopping script issues all its deletions — the
interface-agnostic IPv4/IPv6 forms and the legacy interface-bound variants
across the fixed list of common interface names — before appending the new
rules; consequently, starting from a chain holding at most one active
redirect rule per family for the range, calling `setupPortHopping` twice
with the same range leaves exactly one active interface-agnostic redirect
rule per family for that range, and the same holds when a previous call
used a different range. -/
theorem Firewall.setupPortHopping_idempotent (ch : Firewall.Chain)
    (lo hi p lo2 hi2 p2 : Nat)
    (h4 : Firewall.countRule ch (Firewall.agnosticRule true lo hi p) ≤ 1)
    (h6 : Firewall.countRule ch (Firewall.agnosticRule false lo hi p) ≤ 1) :
    (Firewall.setupScript lo hi p =
      (Firewall.cleanupRules lo hi p).map Firewall.Cmd.del ++
        [Firewall.Cmd.add (Firewall.agnosticRule true lo hi p),
         Firewall.Cmd.add (Firewall.agnosticRule false lo hi p)]) ∧
      (Firewall.countRule
          (Firewall.setupPortHopping (Firewall.setupPortHopping ch lo hi p)
            lo hi p) (Firewall.agnosticRule true lo hi p) = 1 ∧
        Firewall.countRule
          (Firewall.setupPortHopping (Firewall.setupPortHopping ch lo hi p)
            lo hi p) (Firewall.agnosticRule false lo hi p) = 1) ∧
      (Firewall.countRule
          (Firewall.setupPortHopping (Firewall.setupPortHopping
            (Firewall.setupPortHopping ch lo2 hi2 p2) lo hi p) lo hi p)
          (Firewall.agnosticRule true lo hi p) = 1 ∧
        Firewall.countRule
          (Firewall.setupPortHopping (Firewall.setupPortHopping
            (Firewall.setupPortHopping ch lo2 hi2 p2) lo hi p) lo hi p)
          (Firewall.agnosticRule false lo hi p) = 1) := by
  refine ⟨rfl, ⟨?_, ?_⟩, ?_, ?_⟩
  · exact Firewall.count_eq_one_after_setup_self _ lo hi p true
      (by rw [Firewall.count_eq_one_after_setup_self ch lo hi p true h4])
  · exact Firewall.count_eq_one_after_setup_self _ lo hi p false
      (by rw [Firewall.count_eq_one_after_setup_self ch lo hi p false h6])
  · have hprev := Firewall.count_le_one_after_setup ch lo2 hi2 p2
      (Firewall.agnosticRule true lo hi p) rfl h4
    exact Firewall.count_eq_one_after_setup_self _ lo hi p true
      (by rw [Firewall.count_eq_one_after_setup_self _ lo hi p true hprev])
  · have hprev := Firewall.count_le_one_after_setup ch lo2 hi2 p2
      (Firewall.agnosticRule false lo hi p) rfl h6
    exact Firewall.count_eq_one_after_setup_self _ lo hi p false
      (by rw [Firewall.count_eq_one_after_setup_self _ lo hi p false hprev])

/-- C7 witness: on an initially empty chain, after a call for range
`30000-40000` and then two calls for range `20000-50000` (main port 443),
exactly one IPv4 and one IPv6 agnostic redirect rule for `20000-50000`
are active. -/
theorem Firewall.setupPortHopping_idempotent_witness :
    Firewall.countRule ([] : Firewall.Chain)
        (Firewall.agnosticRule true 20000 50000 443) ≤ 1 ∧
      Firewall.countRule
          (Firewall.setupPortHopping (Firewall.setupPortHopping
            (Firewall.setupPortHopping [] 30000 40000 443) 20000 50000 443)
            20000 50000 443)
          (Firewall.agnosticRule true 20000 50000 443) = 1 ∧
      Firewall.countRule
          (Firewall.setupPortHopping (Firewall.setupPortHopping
            (Firewall.setupPortHopping [] 30000 40000 443) 20000 50000 443)
            20000 50000 443)
          (Firewall.agnosticRule false 20000 50000 443) = 1 :=
  ⟨by decide,
    (Firewall.setupPortHopping_idempotent [] 20000 50000 443 30000 40000 443
        (by decide) (by decide)).2.2.1,
    (Firewall.setupPortHopping_idempotent [] 20000 50000 443 30000 40000 443
        (by decide) (by decide)).2.2.2⟩

/-! ## C8 — system stats percentage rounding -/

/-- C8: `getSystemStats` computes memory and disk percentages with
`roundPct`, which equals `used / total * 100` rounded to the nearest whole
percent (round half up: the result `p` satisfies
`p*total - total/2 <= used*100 <= p*total + total/2` in exact form) and is
`0` whenever `total = 0`; the parser stores `roundPct used total` of the
parsed memory/disk tokens, and a memory line `Mem: 1000 400 600` yields a
memory percentage of exactly 40. -/
theorem Stats.getSystemStats_percent_rounding (used total : Nat)
    (ht : 0 < total) :
    (2 * total * Stats.roundPct used total ≤ 200 * used + total ∧
      200 * used < 2 * total * Stats.roundPct used total + total) ∧
      Stats.roundPct used 0 = 0 ∧
      (∀ st line, st.sect = "mem" →
        strIncludes line "===CPU===" = false →
        strIncludes line "===CORES===" = false →
        strIncludes line "===MEM===" = false →
        strIncludes line "===DISK===" = false →
        strIncludes line "===UPTIME===" = false →
        ¬ Stats.jsTrim line = "" →
        (Stats.statsLine st line).mem.percent =
          Stats.roundPct (Stats.jsParseInt ((Stats.splitWs line).getD 2 "") 0)
            (Stats.jsParseInt ((Stats.splitWs line).getD 1 "") 0)) ∧
      (∀ st line, st.sect = "disk" →
        strIncludes line "===CPU===" = false →
        strIncludes line "===CORES===" = false →
        strIncludes line "===MEM===" = false →
        strIncludes line "===DISK===" = false →
        strIncludes line "===UPTIME===" = false →
        ¬ Stats.jsTrim line = "" →
        (Stats.statsLine st line).disk.percent =
          Stats.roundPct (Stats.jsParseInt ((Stats.splitWs line).getD 2 "") 0)
            (Stats.jsParseInt ((Stats.splitWs line).getD 1 "") 0)) ∧
      (Stats.getSystemStats Stats.sampleOutput).mem =
        ⟨1000, 400, 600, 40⟩ := by
  refine ⟨⟨?_, ?_⟩, rfl, ?_, ?_, by decide⟩
  · unfold Stats.roundPct
    rw [if_pos ht, Nat.mul_comm]
    exact Nat.div_mul_le_self _ _
  · unfold Stats.roundPct
    rw [if_pos ht]
    have h2t : 0 < 2 * total := by omega
    have key := Nat.div_add_mod (200 * used + total) (2 * total)
    have hmod := Nat.mod_lt (200 * used + total) h2t
    linarith [key, hmod]
  · intro st line hsect h1 h2 h3 h4 h5 htrim
    simp [Stats.statsLine, h1, h2, h3, h4, h5, htrim, hsect]
  · intro st line hsect h1 h2 h3 h4 h5 htrim
    simp [Stats.statsLine, h1, h2, h3, h4, h5, htrim, hsect]

/-- C8 witness: `used = 400`, `total = 1000` satisfy the rounding bounds
with `roundPct 400 1000 = 40`, and the sample output's memory line
`Mem: 1000 400 600` parses to 40% used. -/
theorem Stats.getSystemStats_percent_rounding_witness :
    (0 : Nat) < 1000 ∧
      ((2 * 1000 * Stats.roundPct 400 1000 ≤ 200 * 400 + 1000 ∧
        200 * 400 < 2 * 1000 * Stats.roundPct 400 1000 + 1000) ∧
       Stats.roundPct 400 0 = 0 ∧
       (Stats.getSystemStats Stats.sampleOutput).mem = ⟨1000, 400, 600, 40⟩) :=
  ⟨by decide,
    (Stats.getSystemStats_percent_rounding 400 1000 (by decide)).1,
    (Stats.getSystemStats_percent_rounding 400 1000 (by decide)).2.1,
    (Stats.getSystemStats_percent_rounding 400 1000 (by decide)).2.2.2.2⟩

/-! ## C10 — credential encrypt/decrypt roundtrip -/

theorem CryptoService.char_toNat_lt (c : Char) : c.toNat < 1114112 := by
  rw [Char.toNat]
  rcases c.valid with h | h
  · have := UInt32.toNat_lt_of_lt (by decide : (55296 : Nat) < UInt32.size) h
    omega
  · exact UInt32.toNat_lt_of_lt (by decide : (1114112 : Nat) < UInt32.size) h.2

theorem CryptoService.utf8Decode_encodeCp_append (n : Nat) (hn : n < 1114112)
    (rest : List Nat) :
    CryptoService.utf8Decode (CryptoService.utf8EncodeCp n ++ rest) =
      (CryptoService.utf8Decode rest).map (n :: ·) := by
  unfold CryptoService.utf8Decode CryptoService.utf8EncodeCp
  by_cases h1 : n < 128
  · rw [if_pos h1]
    simp only [List.cons_append, List.nil_append,
      CryptoService.utf8DecodeAux, reduceIte]
    rw [if_pos h1]
    simp [List.append_eq]
  · rw [if_neg h1]
    by_cases h2 : n < 2048
    · rw [if_pos h2]
      simp only [List.cons_append, List.nil_append,
        CryptoService.utf8DecodeAux, reduceIte]
      rw [if_neg (by omega : ¬ 192 + n / 64 < 128),
        if_neg (by omega : ¬ 192 + n / 64 < 192),
        if_pos (by omega : 192 + n / 64 < 224),
        if_pos (by omega : 128 ≤ 128 + n % 64 ∧ 128 + n % 64 < 192),
        show 192 + n / 64 - 192 = n / 64 from by omega,
        show n / 64 * 64 + (128 + n % 64 - 128) = n from by omega]
      simp [List.append_eq]
    · rw [if_neg h2]
      by_cases h3 : n < 65536
      · rw [if_pos h3]
        simp only [List.cons_append, List.nil_append,
          CryptoService.utf8DecodeAux, reduceIte]
        rw [if_neg (by omega : ¬ 224 + n / 4096 < 128),
          if_neg (by omega : ¬ 224 + n / 4096 < 192),
          if_neg (by omega : ¬ 224 + n / 4096 < 224),
          if_pos (by omega : 224 + n / 4096 < 240),
          if_pos (by omega :
            128 ≤ 128 + n / 64 % 64 ∧ 128 + n / 64 % 64 < 192),
          if_pos (by omega : 128 ≤ 128 + n % 64 ∧ 128 + n % 64 < 192),
          show 224 + n / 4096 - 224 = n / 4096 from by omega,
          show n / 4096 * 64 + (128 + n / 64 % 64 - 128) =
            n / 4096 * 64 + n / 64 % 64 from by omega,
          show (n / 4096 * 64 + n / 64 % 64) * 64 + (128 + n % 64 - 128) = n
            from by omega]
        simp [List.append_eq]
        exact fun hcontra => absurd hcontra (by omega)
      · rw [if_neg h3]
        simp only [List.cons_append, List.nil_append,
          CryptoService.utf8DecodeAux, reduceIte]
        rw [if_neg (by omega : ¬ 240 + n / 262144 < 128),
          if_neg (by omega : ¬ 240 + n / 262144 < 192),
          if_neg (by omega : ¬ 240 + n / 262144 < 224),
          if_neg (by omega : ¬ 240 + n / 262144 < 240),
          if_pos (by omega : 240 + n / 262144 < 248),
          if_pos (by omega :
            128 ≤ 128 + n / 4096 % 64 ∧ 128 + n / 4096 % 64 < 192),
          if_pos (by omega :
            128 ≤ 128 + n / 64 % 64 ∧ 128 + n / 64 % 64 < 192),
          if_pos (by omega : 128 ≤ 128 + n % 64 ∧ 128 + n % 64 < 192),
          show 240 + n / 262144 - 240 = n / 262144 from by omega,
          show n / 262144 * 64 + (128 + n / 4096 % 64 - 128) =
            n / 262144 * 64 + n / 4096 % 64 from by omega,
          show (n / 262144 * 64 + n / 4096 % 64) * 64 +
              (128 + n / 64 % 64 - 128) =
            (n / 262144 * 64 + n / 4096 % 64) * 64 + n / 64 % 64
            from by omega,
          show ((n / 262144 * 64 + n / 4096 % 64) * 64 + n / 64 % 64) * 64 +
              (128 + n % 64 - 128) = n from by omega]
        simp [List.append_eq]
        rw [if_pos (by omega : 128 + n / 64 % 64 < 192),
          if_pos (by omega : 128 + n % 64 < 192)]

theorem CryptoService.utf8Decode_utf8Encode (cs : List Char) :
    CryptoService.utf8Decode (CryptoService.utf8Encode cs) =
      some (cs.map Char.toNat) := by
  induction cs with
  | nil => rfl
  | cons c cs ih =>
    rw [show CryptoService.utf8Encode (c :: cs) =
        CryptoService.utf8EncodeCp c.toNat ++ CryptoService.utf8Encode cs
      from rfl,
      CryptoService.utf8Decode_encodeCp_append c.toNat
        (CryptoService.char_toNat_lt c), ih]
    rfl

theorem CryptoService.pkcs7Unpad_pad (b : List Nat) :
    CryptoService.pkcs7Unpad (CryptoService.pkcs7Pad b) = b := by
  have hmod := Nat.mod_lt b.length (by omega : 0 < 16)
  unfold CryptoService.pkcs7Pad CryptoService.pkcs7Unpad
  have hk : 16 - b.length % 16 = (16 - b.length % 16 - 1) + 1 := by omega
  have hlast : (b ++ List.replicate (16 - b.length % 16)
      (16 - b.length % 16)).getLast? = some (16 - b.length % 16) := by
    rw [hk, List.replicate_succ', ← List.append_assoc, List.getLast?_concat]
  rw [hlast]
  show List.take ((b ++ List.replicate (16 - b.length % 16)
      (16 - b.length % 16)).length - (16 - b.length % 16))
    (b ++ List.replicate (16 - b.length % 16) (16 - b.length % 16)) = b
  have hlen : (b ++ List.replicate (16 - b.length % 16)
      (16 - b.length % 16)).length - (16 - b.length % 16) = b.length := by
    rw [List.length_append, List.length_replicate]
    omega
  rw [hlen]
  exact List.take_left' rfl

/-- C10: for every fixed encryption key, every block cipher whose
decryption inverts its encryption under any key and salt, every salt and
every plaintext string, `decrypt (encrypt s) = s` — the transiently
decrypted credential equals exactly the one originally stored encrypted. -/
theorem CryptoService.decrypt_encrypt_roundtrip (svc : CryptoService.Service)
    (bc : CryptoService.BlockCipher)
    (hinv : ∀ key salt b, bc.dec key salt (bc.enc key salt b) = b)
    (salt : List Nat) (s : String) :
    svc.decrypt bc (svc.encrypt bc salt s) = some s := by
  unfold CryptoService.Service.decrypt CryptoService.Service.encrypt
  rw [hinv, CryptoService.pkcs7Unpad_pad, CryptoService.utf8Decode_utf8Encode]
  show some (String.mk ((s.data.map Char.toNat).map Char.ofNat)) = some s
  have hmap : (s.data.map Char.toNat).map Char.ofNat = s.data := by
    rw [List.map_map]
    have hco : (Char.ofNat ∘ Char.toNat) = id :=
      funext fun c => Char.ofNat_toNat c
    rw [hco, List.map_id]
  rw [hmap]

/-- C10 witness: with the identity block cipher (which trivially inverts),
a fixed key, a concrete salt and the password `s3cret-pw`, the decrypt of
the encrypt returns exactly `s3cret-pw`. -/
theorem CryptoService.decrypt_encrypt_roundtrip_witness :
    (∀ key salt b,
      (CryptoService.BlockCipher.mk (fun _ _ x => x) (fun _ _ x => x)).dec
        key salt
        ((CryptoService.BlockCipher.mk (fun _ _ x => x)
          (fun _ _ x => x)).enc key salt b) = b) ∧
      (CryptoService.Service.mk "panel-key").decrypt
          (CryptoService.BlockCipher.mk (fun _ _ x => x) (fun _ _ x => x))
          ((CryptoService.Service.mk "panel-key").encrypt
            (CryptoService.BlockCipher.mk (fun _ _ x => x) (fun _ _ x => x))
            [1, 2, 3, 4, 5, 6, 7, 8] "s3cret-pw") = some "s3cret-pw" :=
  ⟨fun _ _ _ => rfl,
    CryptoService.decrypt_encrypt_roundtrip (CryptoService.Service.mk
        "panel-key")
      (CryptoService.BlockCipher.mk (fun _ _ x => x) (fun _ _ x => x))
      (fun _ _ _ => rfl) [1, 2, 3, 4, 5, 6, 7, 8] "s3cret-pw"⟩
